import Mathlib

/-!
Shallow embedding of the NHS staff-survey dashboard (`src/app.py`).

The program is a single-file Streamlit app that loads a survey CSV into a
pandas DataFrame, normalizes its schema, and serves three views (Overview,
Themes, Quotation Bank) that filter and aggregate the same in-memory table.

Modelling conventions:
* a cell is `Option String`: `none` models a pandas null (NaN); any concrete
  value is modelled by its string form (the code compares cell values as
  strings via `.astype(str)` wherever truthiness matters);
* a row is an association list from column name to cell, a table is a list
  of rows (row-major, for the filtering/aggregation code);
* the schema-normalization pipeline (`load_data` plus the module-level
  rename/drop steps) works column-wise, so it is embedded column-major as
  a list of named columns;
* percentages are exact rationals (`ℚ`), as the numeric values the code
  computes before display formatting.
-/

namespace NHSDashboard

/-- A table cell: `none` is a pandas null, `some s` a value rendered as `s`. -/
abbrev Cell := Option String

/-- A row: association list from column name to cell value. -/
abbrev Row := List (String × Cell)

/-- A table: list of rows. -/
abbrev RowTable := List Row

/-- Value of column `n` in row `r`; a missing column reads as null. -/
def getCell (r : Row) (n : String) : Cell :=
  match r.lookup n with
  | some c => c
  | none => none

/-- pandas `astype(str)` on one cell: NaN prints as the string "nan". -/
def cellStr : Cell → String
  | none => "nan"
  | some s => s

/-- Python `str.lower()`: lower-case every character. -/
def strLower (s : String) : String :=
  ⟨s.data.map Char.toLower⟩

/-- Code-point lexicographic comparison on character lists. -/
def charListLe : List Char → List Char → Bool
  | [], _ => true
  | _ :: _, [] => false
  | c :: cs, d :: ds => if c < d then true else if d < c then false else charListLe cs ds

/-- Python string comparison (code-point lexicographic), as used by
`sorted` on the option lists. -/
def strLe (s t : String) : Bool :=
  charListLe s.data t.data

/-- `col.astype(str).str.lower().isin(['yes','true','1'])` applied to one
cell (src/app.py lines 139, 160, 195, 204). -/
def truthy (c : Cell) : Bool :=
  ["yes", "true", "1"].contains (strLower (cellStr c))

/-- The nine demographic display names (src/app.py lines 49-52). -/
def demographic_cols : List String :=
  ["Occupation group", "Sexuality", "Disability", "Age group",
   "Service line", "Gender", "Pay band", "Staff group", "Ethnicity"]

/-- The four fixed tag column names (src/app.py line 53). -/
def tags : List String :=
  ["suggestion", "urgent", "positive", "negative"]

/-- `theme_cols = [c for c in all_cols if c not in demographic_cols +
['Comment'] + tags]` (src/app.py line 56). -/
def theme_cols (all_cols : List String) : List String :=
  all_cols.filter (fun c => !((demographic_cols ++ ["Comment"] ++ tags).contains c))

/-! ### Selection normalization and the dimension filter -/

/-- The multiselect normalization at the Overview selector
(src/app.py lines 84-87): drop "All" when other values are present,
revert to ["All"] when the selection is empty. -/
def normSelOverview (sel : List String) : List String :=
  let sel1 := if sel.contains "All" ∧ sel.length > 1
    then sel.filter (fun v => v != "All") else sel
  if sel1.isEmpty then ["All"] else sel1

/-- The identical normalization at the Themes selector
(src/app.py lines 127-130). -/
def normSelThemes (sel : List String) : List String :=
  let sel1 := if sel.contains "All" ∧ sel.length > 1
    then sel.filter (fun v => v != "All") else sel
  if sel1.isEmpty then ["All"] else sel1

/-- The identical normalization at the Quotation Bank selector
(src/app.py lines 184-187). -/
def normSelQuotes (sel : List String) : List String :=
  let sel1 := if sel.contains "All" ∧ sel.length > 1
    then sel.filter (fun v => v != "All") else sel
  if sel1.isEmpty then ["All"] else sel1

/-- Shared name for the (identical) normalization. -/
def normSel : List String → List String := normSelOverview

/-- pandas `Series.isin` on one cell: a null cell never matches. -/
def cellIsin (c : Cell) (vals : List String) : Bool :=
  match c with
  | none => false
  | some s => vals.contains s

/-- The dimension filter (src/app.py line 88, and the equivalent code at
lines 131-132 and 188-189): `df.copy() if "All" in sel else
df[df[dim].isin(sel)]`. -/
def filterDim (t : RowTable) (dim : String) (sel : List String) : RowTable :=
  if sel.contains "All" then t
  else t.filter (fun r => cellIsin (getCell r dim) sel)

/-- Concrete option list for a dimension (src/app.py lines 79, 125, 182):
`sorted(df[dim].dropna().unique().tolist())`. -/
def nonNullVals (t : RowTable) (dim : String) : List String :=
  t.filterMap (fun r => getCell r dim)

/-- Insertion of a string into a sorted list (ascending). -/
def insertSorted (x : String) : List String → List String
  | [] => [x]
  | y :: ys => if strLe x y then x :: y :: ys else y :: insertSorted x ys

/-- Ascending string sort (insertion sort; models Python `sorted`). -/
def sortStrings (l : List String) : List String :=
  l.foldr insertSorted []

/-- `sorted(df[dim].dropna().unique().tolist())`. -/
def optionsFor (t : RowTable) (dim : String) : List String :=
  sortStrings (nonNullVals t dim).dedup

/-! ### Overview aggregation -/

/-- `filtered[dim].value_counts().sort_index()` (src/app.py line 99): count
per distinct non-null value of the column, sorted ascending by label. -/
def valueCountsSorted (t : RowTable) (dim : String) : List (String × Nat) :=
  (sortStrings (nonNullVals t dim).dedup).map
    (fun v => (v, (nonNullVals t dim).count v))

/-- Sum of the per-category counts of the Overview aggregation. -/
def sumCounts (t : RowTable) (dim : String) : Nat :=
  ((valueCountsSorted t dim).map Prod.snd).sum

/-- The Overview tab pipeline (src/app.py lines 84-101): normalize the
selection, filter the table, count per category, and attach
`Percent = Count / total_responses` where `total_responses = len(df)`
is the unfiltered table size fixed at load time (line 46). -/
def overviewRows (df : RowTable) (dim : String) (sel : List String) :
    List (String × Nat × ℚ) :=
  let filtered := filterDim df dim (normSel sel)
  (valueCountsSorted filtered dim).map
    (fun p => (p.1, p.2, (p.2 : ℚ) / (df.length : ℚ)))

/-! ### Theme aggregation -/

/-- Truthy-count for one flag column over a table (src/app.py line 160):
`filtered[theme].astype(str).str.lower().isin(['yes','true','1']).sum()`. -/
def themeCount (t : RowTable) (theme : String) : Nat :=
  (t.filter (fun r => truthy (getCell r theme))).length

/-- One Themes-tab entry (src/app.py lines 156-167): when the filtered
subset is non-empty, `(ct, ct / count_filtered)`; when it is empty the code
takes the explicit zero branch, producing `(0, 0)` with no division. -/
def themeEntry (t : RowTable) (theme : String) : Nat × ℚ :=
  if t.length > 0 then (themeCount t theme, (themeCount t theme : ℚ) / (t.length : ℚ))
  else (0, 0)

/-! ### Flag filters -/

/-- The single-flag filter used for the tag selectbox and the theme
selectbox (src/app.py lines 136-139, 193-195, 202-204): "All" is the
identity, otherwise keep rows whose flag is truthy. (Schema validation at
lines 58-63 guarantees the four tag columns exist.) -/
def filterTag (t : RowTable) (g : String) : RowTable :=
  if g = "All" then t
  else t.filter (fun r => truthy (getCell r g))

/-- Modelled from the spec: the multi-tag OR filter of §4.3 ("a non-empty
set of concrete tags = keep rows where the logical OR of the selected tags'
flags is true", with the same "All"-precedence normalization as §4.2). The
tag selector in src/app.py is single-valued, so the multi-tag combination
is not in that file; truthiness reuses the code's flag coercion. -/
def filterTagsOr (t : RowTable) (sel : List String) : RowTable :=
  let sel1 := normSel sel
  if sel1.contains "All" then t
  else t.filter (fun r => sel1.any (fun g => truthy (getCell r g)))

/-! ### Schema normalization (column-major model) -/

/-- A named column with its cells. -/
structure Col where
  name : String
  cells : List Cell
deriving DecidableEq, Repr

/-- The static alias table (src/app.py lines 29-39), as the pandas `rename`
function on one column name: known raw names map to display names, every
other name is unchanged. -/
def rename_map (n : String) : String :=
  if n = "occupation_group" then "Occupation group"
  else if n = "lgbtq" then "Sexuality"
  else if n = "disability" then "Disability"
  else if n = "age" then "Age group"
  else if n = "service_line" then "Service line"
  else if n = "gender" then "Gender"
  else if n = "payband" then "Pay band"
  else if n = "staff_group" then "Staff group"
  else if n = "bme" then "Ethnicity"
  else n

/-- The raw names the alias table renames. -/
def rawKeys : List String :=
  ["occupation_group", "lgbtq", "disability", "age", "service_line",
   "gender", "payband", "staff_group", "bme"]

/-- pandas `astype(str)` on one cell: a null renders as "nan", a string is
unchanged. -/
def astypeStr : Cell → Cell
  | none => some "nan"
  | some s => some s

/-- pandas `fillna('')` on one cell. -/
def fillnaEmpty (c : Cell) : Cell :=
  some (c.getD "")

/-- `df['Comment'] = df['Comment'].fillna('').astype(str)` applied to one
column (src/app.py lines 22-23): only columns named "Comment" change. -/
def coerceCommentCol (c : Col) : Col :=
  if c.name = "Comment"
  then { c with cells := c.cells.map (fun x => astypeStr (fillnaEmpty x)) }
  else c

/-- `load_data` (src/app.py lines 16-24): drop a stray 'Unnamed: 0' index
column if present, then coerce the comment column. -/
def load_data (t : List Col) : List Col :=
  ((t.filter (fun c => c.name != "Unnamed: 0")).map coerceCommentCol)

/-- The full normalization pipeline (src/app.py lines 16-43): `load_data`,
then rename via the alias table (line 40), then drop a 'division' column if
present (lines 42-43). -/
def normalizeTable (t : List Col) : List Col :=
  ((load_data t).map (fun c => { c with name := rename_map c.name })).filter
    (fun c => c.name != "division")

/-! ### Context lookup (Quotation Bank) -/

/-- A filtered table whose rows carry their (stable, load-time) pandas
index labels, as `q_filtered.index` does. -/
abbrev IndexedTable := List (Nat × Row)

/-- The warning shown when the selected index is gone (src/app.py
line 253). -/
def staleIndexMsg : String :=
  "Selected response index is no longer valid. Please re-select."

/-- Row restricted to the context columns, in their order. -/
def restrictRow (cols : List String) (r : Row) : List (String × Cell) :=
  cols.map (fun c => (c, getCell r c))

/-- The "See context" handler (src/app.py lines 245-253): build the context
column list (demographics, themes, tags, comment, kept when present among
the table's columns), re-check `sel_idx in q_filtered.index` at lookup
time, and either return the selected row's values or report a non-fatal
warning. Totality of this function is the no-crash guarantee. -/
def contextLookup (t : IndexedTable) (allCols : List String) (idx : Nat) :
    Except String (List (String × Cell)) :=
  let base := demographic_cols ++ theme_cols allCols ++ tags ++ ["Comment"]
  let finalCols := base.filter (fun c => allCols.contains c)
  match t.lookup idx with
  | some r => Except.ok (restrictRow finalCols r)
  | none => Except.error staleIndexMsg

/-! ## Helper lemmas -/

/-- `contains` decides membership. -/
lemma contains_iff_mem (l : List String) (x : String) :
    l.contains x = true ↔ x ∈ l :=
  List.elem_iff

/-- `contains = false` decides non-membership. -/
lemma contains_false_iff (l : List String) (x : String) :
    l.contains x = false ↔ x ∉ l := by
  rw [← Bool.not_eq_true, not_iff_not]
  exact contains_iff_mem l x

/-- Permutations do not change `contains`. -/
lemma perm_contains_eq {l l' : List String} (h : l.Perm l') (x : String) :
    l.contains x = l'.contains x := by
  by_cases hm : x ∈ l
  · rw [(contains_iff_mem l x).2 hm, (contains_iff_mem l' x).2 (h.mem_iff.1 hm)]
  · have hm' : x ∉ l' := fun hx => hm (h.mem_iff.2 hx)
    rw [(contains_false_iff l x).2 hm, (contains_false_iff l' x).2 hm']

/-- Selection normalization maps permuted selections to permuted
selections. -/
lemma normSel_perm {sel sel' : List String} (h : sel.Perm sel') :
    (normSel sel).Perm (normSel sel') := by
  have hc := perm_contains_eq h "All"
  have hl := h.length_eq
  unfold normSel normSelOverview
  by_cases hcond : sel.contains "All" = true ∧ sel.length > 1
  · have hcond' : sel'.contains "All" = true ∧ sel'.length > 1 :=
      ⟨hc ▸ hcond.1, hl ▸ hcond.2⟩
    rw [if_pos hcond, if_pos hcond']
    have hpf : (sel.filter (fun v => v != "All")).Perm
        (sel'.filter (fun v => v != "All")) := h.filter _
    by_cases he : (sel.filter (fun v => v != "All")).isEmpty = true
    · have he' : (sel'.filter (fun v => v != "All")).isEmpty = true := by
        rw [List.isEmpty_iff_length_eq_zero] at he ⊢
        rw [← hpf.length_eq]
        exact he
      rw [if_pos he, if_pos he']
    · have he' : ¬((sel'.filter (fun v => v != "All")).isEmpty = true) := by
        rw [List.isEmpty_iff_length_eq_zero] at he ⊢
        rw [← hpf.length_eq]
        exact he
      rw [if_neg he, if_neg he']
      exact hpf
  · have hcond' : ¬(sel'.contains "All" = true ∧ sel'.length > 1) := by
      rw [← hc, ← hl]
      exact hcond
    rw [if_neg hcond, if_neg hcond']
    by_cases he : sel.isEmpty = true
    · have he' : sel'.isEmpty = true := by
        rw [List.isEmpty_iff_length_eq_zero] at he ⊢
        rw [← hl]
        exact he
      rw [if_pos he, if_pos he']
    · have he' : ¬(sel'.isEmpty = true) := by
        rw [List.isEmpty_iff_length_eq_zero] at he ⊢
        rw [← hl]
        exact he
      rw [if_neg he, if_neg he']
      exact h

/-- The dimension filter only depends on the selection up to
permutation. -/
lemma filterDim_perm_sel {sel sel' : List String} (h : sel.Perm sel')
    (t : RowTable) (dim : String) :
    filterDim t dim sel = filterDim t dim sel' := by
  unfold filterDim
  rw [perm_contains_eq h "All"]
  by_cases hc : sel'.contains "All" = true
  · rw [if_pos hc, if_pos hc]
  · rw [if_neg hc, if_neg hc]
    apply List.filter_congr
    intro r _
    cases getCell r dim with
    | none => rfl
    | some s => exact perm_contains_eq h s

/-- Inserting into a sorted list permutes consing. -/
lemma insertSorted_perm (x : String) (l : List String) :
    (insertSorted x l).Perm (x :: l) := by
  induction l with
  | nil => exact List.Perm.refl _
  | cons y ys ih =>
    unfold insertSorted
    by_cases h : strLe x y = true
    · rw [if_pos h]
    · rw [if_neg h]
      exact (ih.cons y).trans (List.Perm.swap x y ys)

/-- Insertion sort permutes its input. -/
lemma sortStrings_perm (l : List String) : (sortStrings l).Perm l := by
  induction l with
  | nil => exact List.Perm.refl _
  | cons x xs ih =>
    exact (insertSorted_perm x (sortStrings xs)).trans (ih.cons x)

/-- A filterMap by an everywhere-defined function preserves length. -/
lemma length_filterMap_of_isSome {α β : Type} (f : α → Option β) (l : List α)
    (h : ∀ a ∈ l, (f a).isSome = true) :
    (l.filterMap f).length = l.length := by
  induction l with
  | nil => rfl
  | cons a as ih =>
    have ha : (f a).isSome = true := h a (List.mem_cons_self a as)
    cases hf : f a with
    | none => rw [hf] at ha; simp at ha
    | some b =>
      rw [List.filterMap_cons, hf]
      simp only [List.length_cons]
      rw [ih (fun a' ha' => h a' (List.mem_cons_of_mem a ha'))]

/-! ## Theorems -/

/-- C1: for every normalized table, the derived theme column set equals the
set of all columns minus the union of the nine demographic display names,
the comment column, and the four tag names; this holds for any list of
columns, including when no theme column remains (second conjunct). -/
theorem C1_theme_columns_complement :
    ∀ (all_cols : List String) (c : String),
      (c ∈ theme_cols all_cols ↔
        c ∈ all_cols ∧ c ∉ demographic_cols ∧ c ≠ "Comment" ∧ c ∉ tags)
      ∧ theme_cols (demographic_cols ++ ["Comment"] ++ tags) = [] := by
  intro all_cols c
  constructor
  · simp only [theme_cols, List.mem_filter, Bool.not_eq_true', contains_false_iff,
      List.mem_append, List.mem_singleton]
    tauto
  · rfl

/-- C2: a flag cell is interpreted as true iff it is a non-null value whose
lowercase string form is "yes", "true" or "1"; a null cell and the empty
string are interpreted as false. -/
theorem C2_flag_truthiness :
    ∀ c : Cell,
      (truthy c = true ↔
        ∃ s, c = some s ∧ (strLower s = "yes" ∨ strLower s = "true" ∨ strLower s = "1"))
      ∧ truthy (none : Cell) = false ∧ truthy (some "") = false := by
  intro c
  refine ⟨?_, by decide, by decide⟩
  cases c with
  | none =>
    constructor
    · intro h
      exact absurd h (by decide)
    · rintro ⟨s, hs, -⟩
      exact Option.noConfusion hs
  | some s =>
    constructor
    · intro h
      refine ⟨s, rfl, ?_⟩
      have hmem := (contains_iff_mem _ _).1 h
      simpa using hmem
    · rintro ⟨s', hs', h⟩
      injection hs' with hss
      subst hss
      apply (contains_iff_mem _ _).2
      simpa using h

/-- C3: after selection normalization, filtering with ["All"] is the
identity, ["All", x] filters like [x], the empty selection reverts to
["All"], the filter result is independent of selection order, and the same
normalization is applied at all three multi-valued selectors. -/
theorem C3_selection_normalization :
    (∀ (t : RowTable) (dim : String), filterDim t dim (normSel ["All"]) = t)
    ∧ (∀ (t : RowTable) (dim : String) (x : String), x ≠ "All" →
        filterDim t dim (normSel ["All", x]) = filterDim t dim (normSel [x]))
    ∧ normSel [] = ["All"]
    ∧ (∀ sel sel' : List String, sel.Perm sel' →
        ∀ (t : RowTable) (dim : String),
          filterDim t dim (normSel sel) = filterDim t dim (normSel sel'))
    ∧ (∀ sel : List String,
        normSelThemes sel = normSelOverview sel
        ∧ normSelQuotes sel = normSelOverview sel) := by
  refine ⟨fun t dim => rfl, ?_, rfl, ?_, fun sel => ⟨rfl, rfl⟩⟩
  · intro t dim x hx
    have hbne : (x != "All") = true := bne_iff_ne.2 hx
    have h1 : normSel ["All", x] = [x] := by
      simp [normSel, normSelOverview, hbne]
    have h2 : normSel [x] = [x] := by
      have hcx : ([x].contains "All") = false := by
        apply (contains_false_iff [x] "All").2
        simp [eq_comm, hx]
      simp [normSel, normSelOverview, hcx]
    rw [h1, h2]
  · intro sel sel' hp t dim
    exact filterDim_perm_sel (normSel_perm hp) t dim

/-- A three-row table used to instantiate C3. -/
def c3T : RowTable :=
  [[("Gender", some "M")], [("Gender", some "F")], [("Gender", (none : Cell))]]

/-- Witness for C3 at a concrete table and concrete selections. -/
theorem C3_selection_normalization_witness :
    (("M" : String) ≠ "All")
    ∧ List.Perm ["M", "F"] ["F", "M"]
    ∧ filterDim c3T "Gender" (normSel ["All", "M"]) = filterDim c3T "Gender" (normSel ["M"])
    ∧ filterDim c3T "Gender" (normSel ["M", "F"]) = filterDim c3T "Gender" (normSel ["F", "M"]) :=
  ⟨by decide, List.Perm.swap "F" "M" [],
    C3_selection_normalization.2.1 c3T "Gender" "M" (by decide),
    C3_selection_normalization.2.2.2.1 ["M", "F"] ["F", "M"]
      (List.Perm.swap "F" "M" []) c3T "Gender"⟩

/-- A two-row table used to instantiate C4. -/
def c4T : RowTable :=
  [[("Gender", some "M")], [("Gender", some "F")]]

/-- C4: every Overview entry's percentage is its count divided by the
unfiltered table size (the load-time total), and at a concrete filtered
table this differs from dividing by the filtered subset size. -/
theorem C4_overview_fixed_denominator :
    (∀ (df : RowTable) (dim : String) (sel : List String) (v : String) (c : Nat) (p : ℚ),
      (v, c, p) ∈ overviewRows df dim sel → p = (c : ℚ) / (df.length : ℚ))
    ∧ (("M", 1, ((1 : Nat) : ℚ) / ((2 : Nat) : ℚ)) ∈ overviewRows c4T "Gender" ["M"]
        ∧ ((1 : Nat) : ℚ) / ((2 : Nat) : ℚ)
            ≠ ((1 : Nat) : ℚ) / (((filterDim c4T "Gender" (normSel ["M"])).length : Nat) : ℚ)) := by
  refine ⟨?_, ?_, ?_⟩
  · intro df dim sel v c p h
    simp only [overviewRows, List.mem_map] at h
    obtain ⟨⟨v₀, c₀⟩, _, heq⟩ := h
    simp only [Prod.mk.injEq] at heq
    obtain ⟨-, hc, hp⟩ := heq
    rw [← hp, hc]
  · have hlist : overviewRows c4T "Gender" ["M"]
        = [("M", 1, ((1 : Nat) : ℚ) / ((2 : Nat) : ℚ))] := rfl
    rw [hlist]
    exact List.mem_singleton_self _
  · have hlen : (filterDim c4T "Gender" (normSel ["M"])).length = 1 := rfl
    rw [hlen]
    norm_num

/-- Witness for C4's quantified part, at the concrete Overview run on
`c4T`. -/
theorem C4_overview_fixed_denominator_witness :
    (("M", 1, ((1 : Nat) : ℚ) / ((2 : Nat) : ℚ)) ∈ overviewRows c4T "Gender" ["M"])
    ∧ ((1 : Nat) : ℚ) / ((2 : Nat) : ℚ) = ((1 : Nat) : ℚ) / ((c4T.length : Nat) : ℚ) :=
  ⟨C4_overview_fixed_denominator.2.1,
    C4_overview_fixed_denominator.1 c4T "Gender" ["M"] "M" 1
      (((1 : Nat) : ℚ) / ((2 : Nat) : ℚ)) C4_overview_fixed_denominator.2.1⟩

/-- C5 (amended): the per-category counts of the categorical aggregation
sum to the number of rows whose value in the dimension is non-null; when
the dimension has no null cells this is the full row count. -/
theorem C5_counts_sum (t : RowTable) (dim : String) :
    sumCounts t dim = (nonNullVals t dim).length
    ∧ ((∀ r ∈ t, ((getCell r dim).isSome = true)) → sumCounts t dim = t.length) := by
  have hbase : sumCounts t dim = (nonNullVals t dim).length := by
    unfold sumCounts valueCountsSorted
    rw [List.map_map]
    have hperm : ((sortStrings (nonNullVals t dim).dedup).map
          (fun v => (nonNullVals t dim).count v)).Perm
        (((nonNullVals t dim).dedup).map (fun v => (nonNullVals t dim).count v)) :=
      (sortStrings_perm _).map _
    rw [show (Prod.snd ∘ fun v => (v, (nonNullVals t dim).count v))
        = fun v => (nonNullVals t dim).count v from rfl]
    rw [hperm.sum_eq]
    exact List.sum_map_count_dedup_eq_length _
  refine ⟨hbase, ?_⟩
  intro h
  rw [hbase]
  exact length_filterMap_of_isSome _ t h

/-- A one-row table whose dimension cell is null, used against C5. -/
def c5T : RowTable := [[("Gender", (none : Cell))]]

/-- C5 counterexample: on a table whose single row has a null dimension
value, the counts sum to 0, not to the row count 1 — `value_counts`
excludes nulls. -/
theorem C5_counts_sum_counterexample :
    ¬ (sumCounts c5T "Gender" = c5T.length) := by
  decide

/-- Witness for C5's second conjunct at a concrete null-free table. -/
theorem C5_counts_sum_witness :
    (∀ r ∈ c4T, ((getCell r "Gender").isSome = true))
    ∧ sumCounts c4T "Gender" = c4T.length :=
  ⟨by decide, (C5_counts_sum c4T "Gender").2 (by decide)⟩

/-- C6 (amended): every Themes-tab percentage lies in [0,1]; the
empty-subset branch produces count 0 and percent 0 for every theme with no
division; and the percentage is 0 exactly when the theme's truthy count is
0 (which includes, but is not limited to, the empty subset). -/
theorem C6_theme_percentage_range :
    ∀ (t : RowTable) (theme : String),
      0 ≤ (themeEntry t theme).2
      ∧ (themeEntry t theme).2 ≤ 1
      ∧ themeEntry ([] : RowTable) theme = (0, 0)
      ∧ ((themeEntry t theme).2 = 0 ↔ themeCount t theme = 0) := by
  intro t theme
  by_cases h : t.length > 0
  · have h2 : themeEntry t theme
        = (themeCount t theme, (themeCount t theme : ℚ) / (t.length : ℚ)) := by
      unfold themeEntry
      rw [if_pos h]
    have hle : themeCount t theme ≤ t.length := List.length_filter_le _ t
    have hnpos : (0 : ℚ) < (t.length : ℚ) := by
      exact_mod_cast h
    refine ⟨?_, ?_, rfl, ?_⟩
    · rw [h2]
      exact div_nonneg (Nat.cast_nonneg _) (Nat.cast_nonneg _)
    · rw [h2]
      rw [div_le_one hnpos]
      exact_mod_cast hle
    · rw [h2]
      simp only []
      rw [div_eq_zero_iff]
      constructor
      · rintro (hc | hn)
        · exact_mod_cast hc
        · exact absurd hn (ne_of_gt hnpos)
      · intro hc
        left
        exact_mod_cast hc
  · have ht : t = [] := List.length_eq_zero.1 (Nat.le_zero.1 (Nat.not_lt.1 h))
    subst ht
    exact ⟨le_refl 0, zero_le_one, rfl, by constructor <;> intro <;> rfl⟩

/-- A one-row table whose theme flag is falsy, used against C6. -/
def c6T : RowTable := [[("wellbeing", some "no")]]

/-- C6 counterexample: on a non-empty filtered subset where no row has the
theme flag truthy, the percentage is 0 even though the subset is not empty,
so "percent = 0 exactly when the subset is empty" fails. -/
theorem C6_theme_percentage_range_counterexample :
    (themeEntry c6T "wellbeing").2 = 0 ∧ c6T.length ≠ 0 := by
  constructor
  · have h : themeEntry c6T "wellbeing" = (0, ((0 : Nat) : ℚ) / ((1 : Nat) : ℚ)) := rfl
    rw [h]
    norm_num
  · decide

/-- Three rows for the multi-tag OR scenario: one urgent, one positive, one
with neither tag. -/
def c7r1 : Row := [("urgent", some "Yes"), ("positive", some "no"), ("Comment", some "a")]

/-- Second scenario row: positive only. -/
def c7r2 : Row := [("urgent", some "no"), ("positive", some "Yes"), ("Comment", some "b")]

/-- Third scenario row: neither tag. -/
def c7r3 : Row := [("urgent", some "no"), ("positive", some "no"), ("Comment", some "c")]

/-- The scenario table for C7. -/
def c7T : RowTable := [c7r1, c7r2, c7r3]

/-- C7: a non-empty concrete multi-tag selection keeps exactly the rows
where at least one selected tag's flag is truthy, and on a singleton
selection it coincides with the code's single-tag filter. -/
theorem C7_multi_tag_or (t : RowTable) (sel : List String)
    (hne : sel ≠ []) (hall : sel.contains "All" = false) :
    (∀ r, r ∈ filterTagsOr t sel ↔ r ∈ t ∧ ∃ g ∈ sel, truthy (getCell r g) = true)
    ∧ (∀ g, g ∈ sel → filterTagsOr t [g] = filterTag t g) := by
  have hnorm : normSel sel = sel := by
    unfold normSel normSelOverview
    have hc : ¬(sel.contains "All" = true ∧ sel.length > 1) := by
      rintro ⟨h1, -⟩
      rw [hall] at h1
      exact Bool.false_ne_true h1
    rw [if_neg hc]
    have he : sel.isEmpty = false := by
      cases sel with
      | nil => exact absurd rfl hne
      | cons a as => rfl
    simp [he]
  constructor
  · intro r
    unfold filterTagsOr
    simp only [hnorm, hall]
    rw [if_neg (by exact fun hc => Bool.false_ne_true hc)]
    rw [List.mem_filter, List.any_eq_true]
  · intro g hg
    have hgne : g ≠ "All" := by
      intro hgeq
      have : sel.contains "All" = true := (contains_iff_mem sel "All").2 (hgeq ▸ hg)
      rw [hall] at this
      exact Bool.false_ne_true this
    have hnorm1 : normSel [g] = [g] := by
      unfold normSel normSelOverview
      have hc : ¬(([g].contains "All") = true ∧ ([g] : List String).length > 1) := by
        rintro ⟨-, h2⟩
        have hlen : ([g] : List String).length = 1 := rfl
        omega
      rw [if_neg hc]
      rfl
    unfold filterTagsOr filterTag
    simp only [hnorm1]
    have hcg : ([g].contains "All") = false := by
      apply (contains_false_iff [g] "All").2
      simp [eq_comm, hgne]
    rw [if_neg (by rw [hcg]; exact fun hc => Bool.false_ne_true hc), if_neg hgne]
    apply List.filter_congr
    intro r _
    simp [List.any]

/-- Witness for C7: Scenario D on the concrete table — with selection
{urgent, positive}, the urgent row and the positive row are kept and the
row with neither tag is excluded; on the singleton selection the filter
agrees with the code's single-tag filter. -/
theorem C7_multi_tag_or_witness :
    (["urgent", "positive"] ≠ ([] : List String))
    ∧ (["urgent", "positive"].contains "All" = false)
    ∧ c7r1 ∈ filterTagsOr c7T ["urgent", "positive"]
    ∧ c7r2 ∈ filterTagsOr c7T ["urgent", "positive"]
    ∧ c7r3 ∉ filterTagsOr c7T ["urgent", "positive"]
    ∧ filterTagsOr c7T ["urgent"] = filterTag c7T "urgent" := by
  have h := C7_multi_tag_or c7T ["urgent", "positive"] (by decide) (by decide)
  refine ⟨by decide, by decide, ?_, ?_, ?_, ?_⟩
  · exact (h.1 c7r1).2 ⟨by decide, "urgent", by decide, by decide⟩
  · exact (h.1 c7r2).2 ⟨by decide, "positive", by decide, by decide⟩
  · intro hmem
    have h3 := (h.1 c7r3).1 hmem
    obtain ⟨-, g, hg, htr⟩ := h3
    have : ¬ ∃ g ∈ ["urgent", "positive"], truthy (getCell c7r3 g) = true := by decide
    exact this ⟨g, hg, htr⟩
  · exact h.2 "urgent" (by decide)

/-! ### Normalization idempotence (C8) -/

/-- Mapping by a function that fixes every element is the identity. -/
lemma map_id_of_mem {α : Type} (f : α → α) (l : List α)
    (h : ∀ a ∈ l, f a = a) : l.map f = l := by
  induction l with
  | nil => rfl
  | cons a as ih =>
    rw [List.map_cons, h a (List.mem_cons_self a as),
      ih (fun a' ha' => h a' (List.mem_cons_of_mem a ha'))]

/-- The alias table never produces a raw key. -/
lemma rename_map_not_key (n : String) : rename_map n ∉ rawKeys := by
  unfold rename_map
  split_ifs <;> first | decide | simp_all [rawKeys]

/-- The alias table fixes names that are not raw keys. -/
lemma rename_map_fix (n : String) (h : n ∉ rawKeys) : rename_map n = n := by
  simp only [rawKeys, List.mem_cons, List.not_mem_nil, or_false, not_or] at h
  obtain ⟨h1, h2, h3, h4, h5, h6, h7, h8, h9⟩ := h
  unfold rename_map
  rw [if_neg h1, if_neg h2, if_neg h3, if_neg h4, if_neg h5, if_neg h6,
    if_neg h7, if_neg h8, if_neg h9]

/-- The alias table never produces the stray index column name. -/
lemma rename_map_ne_unnamed (n : String) (h : n ≠ "Unnamed: 0") :
    rename_map n ≠ "Unnamed: 0" := by
  unfold rename_map
  split_ifs <;> first | decide | exact h

/-- Only the comment column renames to the comment column. -/
lemma rename_map_to_comment (n : String) (h : rename_map n = "Comment") :
    n = "Comment" := by
  revert h
  unfold rename_map
  split_ifs <;> intro h <;> first | exact absurd h (by decide) | exact h

/-- Comment coercion does not change a column's name. -/
lemma coerceCommentCol_name (c : Col) : (coerceCommentCol c).name = c.name := by
  unfold coerceCommentCol
  split_ifs <;> rfl

/-- The comment coercion always yields a non-null cell. -/
lemma astype_fillna_isSome (x : Cell) : (astypeStr (fillnaEmpty x)).isSome = true := rfl

/-- Comment coercion fixes a column whose cells are already non-null. -/
lemma coerceCommentCol_fix (c : Col)
    (h : c.name = "Comment" → ∀ x ∈ c.cells, x.isSome = true) :
    coerceCommentCol c = c := by
  unfold coerceCommentCol
  split_ifs with hc
  · have hcells : c.cells.map (fun x => astypeStr (fillnaEmpty x)) = c.cells := by
      apply map_id_of_mem
      intro x hx
      cases x with
      | none => exact absurd (h hc none hx) (by decide)
      | some s => rfl
    cases c with
    | mk name cells => simp only at hcells ⊢; rw [hcells]
  · rfl

/-- A column already in the normalized form: its name is no raw key, no
stray index name, not the dropped division column, and its comment cells
(if it is the comment column) are non-null. -/
def NormalizedCol (c : Col) : Prop :=
  c.name ∉ rawKeys ∧ c.name ≠ "Unnamed: 0" ∧ c.name ≠ "division"
  ∧ (c.name = "Comment" → ∀ x ∈ c.cells, x.isSome = true)

/-- Normalization fixes a table whose columns are all normalized. -/
lemma normalizeTable_fix (t : List Col) (h : ∀ c ∈ t, NormalizedCol c) :
    normalizeTable t = t := by
  unfold normalizeTable load_data
  have h1 : t.filter (fun c => c.name != "Unnamed: 0") = t :=
    List.filter_eq_self.mpr (fun c hc => bne_iff_ne.2 (h c hc).2.1)
  rw [h1]
  have h2 : t.map coerceCommentCol = t :=
    map_id_of_mem _ t (fun c hc => coerceCommentCol_fix c (h c hc).2.2.2)
  rw [h2]
  have h3 : t.map (fun c => { c with name := rename_map c.name }) = t := by
    apply map_id_of_mem
    intro c hc
    have := rename_map_fix c.name (h c hc).1
    cases c with
    | mk name cells => simp only at this ⊢; rw [this]
  rw [h3]
  exact List.filter_eq_self.mpr (fun c hc => bne_iff_ne.2 (h c hc).2.2.1)

/-- Every column produced by normalization is in normalized form. -/
lemma normalizeTable_normalized (t : List Col) :
    ∀ c ∈ normalizeTable t, NormalizedCol c := by
  intro c hc
  unfold normalizeTable at hc
  rw [List.mem_filter] at hc
  obtain ⟨hmem, hdiv⟩ := hc
  rw [List.mem_map] at hmem
  obtain ⟨c1, hc1, heq⟩ := hmem
  unfold load_data at hc1
  rw [List.mem_map] at hc1
  obtain ⟨c2, hc2, heq2⟩ := hc1
  rw [List.mem_filter] at hc2
  obtain ⟨-, hunnamed⟩ := hc2
  subst heq2
  subst heq
  have hname : (coerceCommentCol c2).name = c2.name := coerceCommentCol_name c2
  have hun : c2.name ≠ "Unnamed: 0" := bne_iff_ne.1 hunnamed
  refine ⟨rename_map_not_key _, ?_, bne_iff_ne.1 hdiv, ?_⟩
  · rw [hname]
    exact rename_map_ne_unnamed c2.name hun
  · intro hcomment x hx
    have hc2name : c2.name = "Comment" := by
      rw [← hname]
      exact rename_map_to_comment _ (hname ▸ hcomment)
    have hcoerce : coerceCommentCol c2
        = { c2 with cells := c2.cells.map (fun x => astypeStr (fillnaEmpty x)) } := by
      unfold coerceCommentCol
      rw [if_pos hc2name]
    rw [hcoerce] at hx
    simp only [List.mem_map] at hx
    obtain ⟨y, -, hy⟩ := hx
    rw [← hy]
    exact astype_fillna_isSome y

/-- C8: schema normalization is idempotent — applying the pipeline (drop
stray index column, coerce comment nulls, rename demographic aliases, drop
division column) twice yields exactly the table obtained by applying it
once, columns and cell values alike. -/
theorem C8_normalization_idempotent :
    ∀ t : List Col, normalizeTable (normalizeTable t) = normalizeTable t :=
  fun t => normalizeTable_fix _ (normalizeTable_normalized t)

/-- C9: the context lookup re-validates membership at lookup time — when
the identifier is still in the filtered subset's index it returns that
row's values over the context columns, and when it is not it returns the
stale-index warning; the lookup is a total function, so no input can make
it crash. -/
theorem C9_context_lookup (t : IndexedTable) (allCols : List String) (idx : Nat) :
    (∀ r, t.lookup idx = some r →
      contextLookup t allCols idx = Except.ok (restrictRow
        ((demographic_cols ++ theme_cols allCols ++ tags ++ ["Comment"]).filter
          (fun c => allCols.contains c)) r))
    ∧ (t.lookup idx = none →
        contextLookup t allCols idx = Except.error staleIndexMsg) := by
  constructor
  · intro r h
    unfold contextLookup
    rw [h]
  · intro h
    unfold contextLookup
    rw [h]

/-- The full column list of the C9 example table. -/
def c9cols : List String :=
  ["Gender", "wellbeing", "urgent", "Comment"]

/-- The row the C9 lookup succeeds on. -/
def c9row : Row :=
  [("Gender", some "F"), ("wellbeing", some "Yes"), ("urgent", some "no"),
   ("Comment", some "more staff please")]

/-- An indexed filtered subset whose index set is {0, 2}. -/
def c9T : IndexedTable :=
  [(0, [("Gender", some "M"), ("wellbeing", some "no"), ("urgent", some "no"),
        ("Comment", some "fine")]),
   (2, c9row)]

/-- Witness for C9: index 2 is still present and looks up to its row's
context values; index 1 is absent and yields the stale-index warning. -/
theorem C9_context_lookup_witness :
    (c9T.lookup 2 = some c9row)
    ∧ contextLookup c9T c9cols 2 = Except.ok (restrictRow
        ((demographic_cols ++ theme_cols c9cols ++ tags ++ ["Comment"]).filter
          (fun c => c9cols.contains c)) c9row)
    ∧ (c9T.lookup 1 = none)
    ∧ contextLookup c9T c9cols 1 = Except.error staleIndexMsg :=
  ⟨rfl, (C9_context_lookup c9T c9cols 2).1 c9row rfl, rfl,
    (C9_context_lookup c9T c9cols 1).2 rfl⟩

/-- C10: a row with a null dimension cell is kept by the "All" selection
(identity filter) but excluded by every concrete selection, and every
concrete selector option is a non-null value observed in the dimension. -/
theorem C10_null_rows_excluded (t : RowTable) (dim : String) (sel : List String)
    (hall : sel.contains "All" = false) :
    (filterDim t dim ["All"] = t)
    ∧ (∀ r, r ∈ t → getCell r dim = none → r ∉ filterDim t dim sel)
    ∧ (∀ v, v ∈ optionsFor t dim → ∃ r, r ∈ t ∧ getCell r dim = some v) := by
  refine ⟨rfl, ?_, ?_⟩
  · intro r _ hnull hmem
    unfold filterDim at hmem
    rw [if_neg (by rw [hall]; exact Bool.false_ne_true)] at hmem
    rw [List.mem_filter] at hmem
    have hfalse := hmem.2
    rw [hnull] at hfalse
    exact Bool.false_ne_true hfalse
  · intro v hv
    unfold optionsFor at hv
    have hv2 : v ∈ (nonNullVals t dim).dedup := ((sortStrings_perm _).mem_iff).1 hv
    have hv3 : v ∈ nonNullVals t dim := List.mem_dedup.1 hv2
    unfold nonNullVals at hv3
    rw [List.mem_filterMap] at hv3
    obtain ⟨r, hr, hget⟩ := hv3
    exact ⟨r, hr, hget⟩

/-- Witness for C10 on the concrete table with a null Gender row: the null
row survives "All" (identity) and is excluded by the concrete selection
["M"]. -/
theorem C10_null_rows_excluded_witness :
    ((["M"] : List String).contains "All" = false)
    ∧ ([("Gender", (none : Cell))] ∈ c3T)
    ∧ getCell [("Gender", (none : Cell))] "Gender" = none
    ∧ [("Gender", (none : Cell))] ∉ filterDim c3T "Gender" ["M"]
    ∧ filterDim c3T "Gender" ["All"] = c3T := by
  have h := C10_null_rows_excluded c3T "Gender" ["M"] (by decide)
  exact ⟨by decide, by decide, rfl, h.2.1 _ (by decide) rfl, h.1⟩

end NHSDashboard
